import Mathlib

/-!
Shallow embedding of the flashback_bot repository (src/database.py, src/bot.py).

Timestamps are modelled as integers (UTC seconds).  Where the code compares
two SQLite-written timestamps (`last_shown` against `datetime('now', ...)`),
both are `"YYYY-MM-DD HH:MM:SS"` strings whose bytewise order agrees with
chronological order, so the integer timeline models those comparisons
directly.  The one mixed comparison — `is_duplicate`, which compares the
stored `CURRENT_TIMESTAMP` text against a Python `isoformat()` cutoff —
does NOT reduce to the timeline and is modelled separately (see `utc_day`
and `is_duplicate`).  `RANDOM()` tie-breaking in ORDER BY clauses is
modelled by an arbitrary `tiebreak : Int → Nat` priority on quote ids,
quantified in the theorems.
-/

namespace Flashback

/-- Seconds per minute. -/
def minuteSecs : Int := 60

/-- Seconds per day. -/
def daySecs : Int := 86400

/-- A row of the `quotes` table (database.py, CREATE TABLE quotes). -/
structure Quote where
  id : Int
  user_id : Int
  text : String
  url : Option String
  source_title : Option String
  source_author : Option String
  source_domain : Option String
  tags : Option String
  is_favorite : Bool
  times_shown : Nat
  last_shown : Option Int
  created_at : Int
deriving DecidableEq, Repr

/-- The quote store: the `quotes` table plus the AUTOINCREMENT counter that
assigns the next primary key. -/
structure Store where
  quotes : List Quote
  next_id : Int
deriving DecidableEq, Repr

/-- Store invariant guaranteed by SQLite: primary keys are pairwise distinct
and AUTOINCREMENT never reuses an id, so every stored id is below the
counter. -/
def Store.wf (s : Store) : Prop :=
  s.quotes.Pairwise (fun a b => a.id ≠ b.id) ∧ ∀ q ∈ s.quotes, q.id < s.next_id

instance (s : Store) : Decidable s.wf := by
  unfold Store.wf; infer_instance

/-- The rows of the store owned by user `u` (`WHERE user_id = ?`). -/
def user_rows (u : Int) (s : Store) : List Quote :=
  s.quotes.filter fun q => decide (q.user_id = u)

/-- The rows of the store NOT owned by user `u` (the complement of
`user_rows`, used to state ownership isolation). -/
def other_rows (u : Int) (s : Store) : List Quote :=
  s.quotes.filter fun q => decide (q.user_id ≠ u)

/-- `LIMIT n` in SQLite: a negative limit means no upper bound on the number
of returned rows; otherwise the first `n` rows are returned. -/
def sql_limit (n : Int) (l : List Quote) : List Quote :=
  if n < 0 then l else l.take n.toNat

/-- database.py `save_quote`: INSERT a new row (text may be any string — the
NOT NULL constraint only rejects NULL, never the empty string), returning the
fresh AUTOINCREMENT id.  `tags` are comma-joined; an empty tag list is stored
as NULL (`",".join(tags) if tags else None`).  `created_at` defaults to the
current timestamp `now`. -/
def save_quote (now : Int) (user_id : Int) (text : String)
    (url title author domain : Option String) (tags : List String)
    (s : Store) : Int × Store :=
  let tags_str : Option String :=
    if tags.isEmpty then none else some (String.intercalate "," tags)
  let row : Quote :=
    { id := s.next_id, user_id := user_id, text := text, url := url,
      source_title := title, source_author := author, source_domain := domain,
      tags := tags_str, is_favorite := false, times_shown := 0,
      last_shown := none, created_at := now }
  (s.next_id, { quotes := s.quotes ++ [row], next_id := s.next_id + 1 })

/-- database.py `delete_quote`: `DELETE FROM quotes WHERE id = ? AND user_id = ?`,
returning `rowcount > 0`. -/
def delete_quote (user_id : Int) (quote_id : Int) (s : Store) : Bool × Store :=
  let deleted := s.quotes.countP fun q => decide (q.id = quote_id ∧ q.user_id = user_id)
  (decide (0 < deleted),
   { s with quotes := s.quotes.filter fun q => !(decide (q.id = quote_id ∧ q.user_id = user_id)) })

/-- database.py `get_quote_by_id`: `SELECT * WHERE id = ? AND user_id = ?`. -/
def get_quote_by_id (user_id : Int) (quote_id : Int) (s : Store) : Option Quote :=
  s.quotes.find? fun q => decide (q.id = quote_id ∧ q.user_id = user_id)

/-- The spaced-repetition bucket of the ORDER BY CASE expression in
`get_random_quotes`: 0 when never shown, 1 when last shown more than 30 days
ago, 2 when more than 7 (but at most 30) days ago, 3 otherwise. -/
def sr_bucket (now : Int) (q : Quote) : Nat :=
  match q.last_shown with
  | none => 0
  | some t =>
    if t < now - 30 * daySecs then 1
    else if t < now - 7 * daySecs then 2
    else 3

/-- The ordering realised by `ORDER BY CASE ..., times_shown ASC, RANDOM()`:
lexicographic on (bucket, times_shown, random tiebreak). -/
def sr_rel (now : Int) (tiebreak : Int → Nat) (a b : Quote) : Prop :=
  sr_bucket now a < sr_bucket now b ∨
    (sr_bucket now a = sr_bucket now b ∧
      (a.times_shown < b.times_shown ∨
        (a.times_shown = b.times_shown ∧ tiebreak a.id ≤ tiebreak b.id)))

instance (now : Int) (tiebreak : Int → Nat) : DecidableRel (sr_rel now tiebreak) :=
  fun a b => by unfold sr_rel; infer_instance

instance (now : Int) (tiebreak : Int → Nat) : IsTotal Quote (sr_rel now tiebreak) :=
  ⟨by intro a b; unfold sr_rel; omega⟩

instance (now : Int) (tiebreak : Int → Nat) : IsTrans Quote (sr_rel now tiebreak) :=
  ⟨by intro a b c; unfold sr_rel; omega⟩

/-- The ordering realised by `ORDER BY RANDOM()` alone. -/
def rand_rel (tiebreak : Int → Nat) (a b : Quote) : Prop :=
  tiebreak a.id ≤ tiebreak b.id

instance (tiebreak : Int → Nat) : DecidableRel (rand_rel tiebreak) :=
  fun a b => by unfold rand_rel; infer_instance

/-- The rows selected by `get_random_quotes` before the counter update
(sorting is a stand-in for the SQL engine producing the rows in key order). -/
def selected_quotes (tiebreak : Int → Nat) (now : Int) (user_id : Int) (n : Int)
    (use_spaced_repetition : Bool) (s : Store) : List Quote :=
  let ordered :=
    if use_spaced_repetition then
      List.insertionSort (sr_rel now tiebreak) (user_rows user_id s)
    else
      List.insertionSort (rand_rel tiebreak) (user_rows user_id s)
  sql_limit n ordered

/-- database.py `get_random_quotes`: select up to `n` rows of the user ordered
by the spaced-repetition expression (or purely randomly), then — when anything
was selected — `UPDATE quotes SET last_shown = CURRENT_TIMESTAMP,
times_shown = times_shown + 1 WHERE id IN (...)` (the UPDATE filters by id
alone).  Returns the selected rows (pre-update values) and the new store. -/
def get_random_quotes (tiebreak : Int → Nat) (now : Int) (user_id : Int) (n : Int)
    (use_spaced_repetition : Bool) (s : Store) : List Quote × Store :=
  let chosen := selected_quotes tiebreak now user_id n use_spaced_repetition s
  if chosen.isEmpty then (chosen, s)
  else
    let ids := chosen.map Quote.id
    (chosen,
     { s with quotes := s.quotes.map fun q =>
         if q.id ∈ ids then
           { q with times_shown := q.times_shown + 1, last_shown := some now }
         else q })

/-- The ordering realised by `ORDER BY created_at DESC` (ties are left in
stable order; SQL leaves their order unspecified). -/
def created_desc (a b : Quote) : Prop :=
  b.created_at ≤ a.created_at

instance : DecidableRel created_desc :=
  fun a b => by unfold created_desc; infer_instance

instance : IsTotal Quote created_desc :=
  ⟨by intro a b; unfold created_desc; omega⟩

instance : IsTrans Quote created_desc :=
  ⟨by intro a b c; unfold created_desc; omega⟩

/-- database.py `get_last_quotes`: the user's rows newest first, `LIMIT n`. -/
def get_last_quotes (user_id : Int) (n : Int) (s : Store) : List Quote :=
  sql_limit n (List.insertionSort created_desc (user_rows user_id s))

/-- Substring test on character lists (helper for SQL `LIKE '%kw%'`). -/
def has_sublist (needle : List Char) : List Char → Bool
  | [] => needle.isEmpty
  | c :: t => needle.isPrefixOf (c :: t) || has_sublist needle t

/-- SQL `LIKE '%kw%'`: case-insensitive substring containment. -/
def like_contains (hay pat : String) : Bool :=
  has_sublist (pat.toList.map Char.toLower) (hay.toList.map Char.toLower)

/-- database.py `search_quotes`: `WHERE user_id = ? AND text LIKE '%kw%'
ORDER BY created_at DESC LIMIT 10`. -/
def search_quotes (user_id : Int) (keyword : String) (s : Store) : List Quote :=
  sql_limit 10
    (List.insertionSort created_desc
      (s.quotes.filter fun q =>
        decide (q.user_id = user_id) && like_contains q.text keyword))

/-- database.py `toggle_favorite`: none when no row matches id and owner;
otherwise flip the flag and return the new value. -/
def toggle_favorite (user_id : Int) (quote_id : Int) (s : Store) :
    Option Bool × Store :=
  match s.quotes.find? fun q => decide (q.id = quote_id ∧ q.user_id = user_id) with
  | none => (none, s)
  | some row =>
    let new_status := !row.is_favorite
    (some new_status,
     { s with quotes := s.quotes.map fun q =>
         if q.id = quote_id ∧ q.user_id = user_id then
           { q with is_favorite := new_status }
         else q })

/-- The date prefix ("YYYY-MM-DD") of a timestamp, as a day index: the
floor of the timestamp divided by the seconds per day.  Two zero-padded
date strings compare bytewise in the same order as their day indices. -/
def utc_day (t : Int) : Int := t.fdiv daySecs

/-- database.py `is_duplicate`: `SELECT COUNT(*) ... WHERE user_id = ? AND
text = ? AND created_at >= ?` with the cutoff bound as
`(datetime.now() - timedelta(minutes=minutes)).isoformat()`.

The stored `created_at` is SQLite `CURRENT_TIMESTAMP` text — UTC,
`"YYYY-MM-DD HH:MM:SS"` — while the bound cutoff is Python local time,
`"YYYY-MM-DDTHH:MM:SS.ffffff"`.  Neither converts under the column's
NUMERIC affinity, so SQLite compares the two TEXT values bytewise: the
zero-padded date prefixes decide first, and when the dates are equal the
11th byte decides — `' '` (0x20) in the row versus `'T'` (0x54) in the
cutoff — putting every same-date row strictly below the cutoff.  Hence
`created_at >= cutoff` holds exactly when the row's UTC date is strictly
later than the cutoff's local date.  `tz` is the local-minus-UTC offset of
`datetime.now()` in seconds; `now` is the UTC instant of the call. -/
def is_duplicate (tz : Int) (now : Int) (user_id : Int) (text : String)
    (minutes : Int) (s : Store) : Bool :=
  let cutoff := now + tz - minutes * minuteSecs
  decide (0 < s.quotes.countP fun q =>
    decide (q.user_id = user_id ∧ q.text = text ∧ utc_day cutoff < utc_day q.created_at))

/-! ## bot.py: pending-URL cache and command handlers -/

/-- Result of `fetch_metadata` (title/author/domain, each optional). -/
structure Metadata where
  title : Option String
  author : Option String
  domain : Option String
deriving DecidableEq, Repr

/-- bot.py `context.user_data["pending_url"]`: url, metadata, capture time. -/
structure PendingUrl where
  url : String
  metadata : Metadata
  timestamp : Int
deriving DecidableEq, Repr

/-- bot.py `PENDING_URL_TIMEOUT` (minutes). -/
def PENDING_URL_TIMEOUT : Int := 5

/-- bot.py `get_pending_url`: returns the stored pair unless
`now - timestamp > 5 minutes`, in which case the entry is popped (side
effect) and none is returned.  Result: (returned value, new cache state). -/
def get_pending_url (now : Int) (p : Option PendingUrl) :
    Option (String × Metadata) × Option PendingUrl :=
  match p with
  | none => (none, none)
  | some pending =>
    if pending.timestamp + PENDING_URL_TIMEOUT * minuteSecs < now then (none, none)
    else (some (pending.url, pending.metadata), some pending)

/-- bot.py `set_pending_url`. -/
def set_pending_url (now : Int) (url : String) (metadata : Metadata)
    (_p : Option PendingUrl) : Option PendingUrl :=
  some { url := url, metadata := metadata, timestamp := now }

/-- bot.py `clear_pending_url`. -/
def clear_pending_url (_p : Option PendingUrl) : Option PendingUrl := none

/-- Replies the modelled handlers can send (each constructor stands for one
of the literal reply texts in bot.py). -/
inductive Reply where
  /-- "Usage: /cmd <...>" (missing argument). -/
  | usage_msg (cmd : String)
  /-- "Invalid quote ID. Use a number." (malformed numeric argument). -/
  | invalid_id
  /-- "Quote #id not found." -/
  | not_found (quote_id : Int)
  /-- "No quotes saved yet." -/
  | no_quotes
  /-- "Last n quote(s): ..." — a reply listing quotes. -/
  | quote_list (quotes : List Quote)
  /-- "Deleted quote #id: ..." -/
  | deleted (quote_id : Int)
  /-- "Failed to delete quote." -/
  | delete_failed
  /-- "Got the link! ..." -/
  | got_link
  /-- "I couldn't find a quote in your message. ..." -/
  | no_quote_found
  /-- "This quote was already saved recently." -/
  | duplicate_notice
  /-- "Saved (#id): ..." -/
  | saved (quote_id : Int)
deriving DecidableEq, Repr

/-- Whether a reply is one of the user-facing usage / argument-validation
messages. -/
def Reply.is_usage : Reply → Bool
  | .usage_msg _ => true
  | .invalid_id => true
  | _ => false

/-- The quotes carried by a reply (empty for non-list replies). -/
def Reply.reply_quotes : Reply → List Quote
  | .quote_list l => l
  | _ => []

/-- Decimal value of a digit list (helper for `py_int`). -/
def dec_digits (ds : List Char) : Nat :=
  ds.foldl (fun acc c => acc * 10 + (c.toNat - 48)) 0

/-- Models Python `int(arg)`: `none` where `int()` raises ValueError.
Agrees with Python on plain decimal literals such as "20", "-1" and on
non-numeric strings such as "abc" — the only inputs the claims concern. -/
def py_int (s : String) : Option Int :=
  match s.toList with
  | [] => none
  | '-' :: ds =>
    if ds ≠ [] ∧ ds.all Char.isDigit then some (-(dec_digits ds : Int)) else none
  | ds =>
    if ds.all Char.isDigit then some (dec_digits ds : Int) else none

/-- bot.py `last_command`: `n = 5; if args: try n = min(int(args[0]), 10)
except ValueError: pass`, then show the last `n` quotes (read-only). -/
def last_command (args : List String) (user_id : Int) (s : Store) :
    Reply × Store :=
  let n : Int :=
    match args with
    | [] => 5
    | a :: _ =>
      match py_int a with
      | some k => min k 10
      | none => 5
  let quotes := get_last_quotes user_id n s
  (if quotes.isEmpty then .no_quotes else .quote_list quotes, s)

/-- bot.py `fav_command`: missing argument → usage message; non-numeric →
"Invalid quote ID"; otherwise toggle the favorite flag. -/
def fav_command (args : List String) (user_id : Int) (s : Store) :
    Reply × Store :=
  match args with
  | [] => (.usage_msg "fav", s)
  | a :: _ =>
    match py_int a with
    | none => (.invalid_id, s)
    | some quote_id =>
      match toggle_favorite user_id quote_id s with
      | (none, s') => (.not_found quote_id, s')
      | (some _, s') => (.saved quote_id, s')

/-- bot.py `delete_command`: missing argument → usage message; non-numeric →
"Invalid quote ID"; otherwise look the quote up (owner-scoped) and delete. -/
def delete_command (args : List String) (user_id : Int) (s : Store) :
    Reply × Store :=
  match args with
  | [] => (.usage_msg "delete", s)
  | a :: _ =>
    match py_int a with
    | none => (.invalid_id, s)
    | some quote_id =>
      match get_quote_by_id user_id quote_id s with
      | none => (.not_found quote_id, s)
      | some _ =>
        let (ok, s') := delete_quote user_id quote_id s
        (if ok then .deleted quote_id else .delete_failed, s')

/-- The output of `parse_message` (an external collaborator of bot.py):
at most one URL, the remaining quote text, and the extracted tags. -/
structure Parsed where
  url : Option String
  quote : Option String
  tags : List String
deriving DecidableEq, Repr

/-- bot.py `handle_message` on an already-parsed message.  `fetch` models
`fetch_metadata`; `tz` is the local-clock offset passed down to
`is_duplicate`.  URL-only message → store pending URL; no quote text →
complaint; duplicate → notice, nothing touched; otherwise save, attaching
either the message's own URL (fresh metadata, pending cleared) or a live
pending URL (consumed), and clearing an expired pending entry as the
`get_pending_url` side effect. -/
def handle_message (fetch : String → Metadata) (tz : Int) (now : Int) (user_id : Int)
    (parsed : Parsed) (s : Store) (p : Option PendingUrl) :
    Reply × Store × Option PendingUrl :=
  match parsed.url, parsed.quote with
  | some u, none =>
    (.got_link, s, set_pending_url now u (fetch u) p)
  | none, none =>
    (.no_quote_found, s, p)
  | murl, some q =>
    if is_duplicate tz now user_id q 1 s then
      (.duplicate_notice, s, p)
    else
      match murl with
      | some u =>
        let md := fetch u
        let (qid, s') :=
          save_quote now user_id q (some u) md.title md.author md.domain parsed.tags s
        (.saved qid, s', clear_pending_url p)
      | none =>
        match get_pending_url now p with
        | (some (u, md), _) =>
          let (qid, s') :=
            save_quote now user_id q (some u) md.title md.author md.domain parsed.tags s
          (.saved qid, s', clear_pending_url p)
        | (none, p') =>
          let (qid, s') :=
            save_quote now user_id q none none none none parsed.tags s
          (.saved qid, s', p')

/-! ## Concrete fixtures used by witnesses and counterexamples -/

/-- The empty store (fresh database; AUTOINCREMENT starts at 1). -/
def empty_store : Store := ⟨[], 1⟩

/-- A quote of user 1 that was never shown but has a positive counter. -/
def wq1 : Quote := ⟨1, 1, "alpha", none, none, none, none, none, false, 3, none, 0⟩

/-- A quote of user 1 shown at time 5 with counter 0. -/
def wq2 : Quote := ⟨2, 1, "beta", none, none, none, none, none, false, 0, some 5, 1⟩

/-- A quote of user 2 sharing no ids with user 1's quotes. -/
def wq3 : Quote := ⟨3, 2, "gamma", none, none, none, none, none, false, 0, none, 2⟩

/-- A two-user store. -/
def wstore : Store := ⟨[wq1, wq2, wq3], 4⟩

/-- `wstore` with user 2's row changed (user 1's rows untouched). -/
def wstore2 : Store := ⟨[wq1, wq2, ⟨3, 2, "delta", none, none, none, none, none, false, 7, some 9, 3⟩], 4⟩

/-- Sample metadata. -/
def wmeta : Metadata := ⟨some "T", some "A", some "D"⟩

/-- Eleven quotes of user 1 (for the `/last` LIMIT counterexample). -/
def eleven_store : Store :=
  ⟨(List.range 11).map (fun i =>
    ⟨(i : Int) + 1, 1, "q", none, none, none, none, none, false, 0, none, (i : Int)⟩), 12⟩

/-! ## Helper lemmas -/

theorem sql_limit_sublist (n : Int) (l : List Quote) : (sql_limit n l).Sublist l := by
  unfold sql_limit
  split
  · exact List.Sublist.refl l
  · exact List.take_sublist _ l

theorem mem_of_mem_sql_limit {n : Int} {l : List Quote} {q : Quote}
    (h : q ∈ sql_limit n l) : q ∈ l :=
  (sql_limit_sublist n l).subset h

theorem pairwise_sql_limit {R : Quote → Quote → Prop} (n : Int) {l : List Quote}
    (h : l.Pairwise R) : (sql_limit n l).Pairwise R :=
  List.Pairwise.sublist (sql_limit_sublist n l) h

theorem mem_user_rows {u : Int} {s : Store} {q : Quote} :
    q ∈ user_rows u s ↔ q ∈ s.quotes ∧ q.user_id = u := by
  simp [user_rows]

/-- In a well-formed store, rows are determined by their primary key. -/
theorem Store.id_unique {s : Store} (h : s.wf) {a b : Quote}
    (ha : a ∈ s.quotes) (hb : b ∈ s.quotes) (hid : a.id = b.id) : a = b := by
  by_contra hne
  have hsym : Symmetric (fun a b : Quote => a.id ≠ b.id) := by
    intro x y hxy e
    exact hxy e.symm
  exact List.Pairwise.forall hsym h.1 ha hb hne hid

theorem get_random_quotes_fst (tiebreak : Int → Nat) (now user_id n : Int)
    (sp : Bool) (s : Store) :
    (get_random_quotes tiebreak now user_id n sp s).1 =
      selected_quotes tiebreak now user_id n sp s := by
  simp only [get_random_quotes]
  split <;> rfl

theorem mem_selected {tiebreak : Int → Nat} {now user_id n : Int} {sp : Bool}
    {s : Store} {q : Quote} (h : q ∈ selected_quotes tiebreak now user_id n sp s) :
    q ∈ user_rows user_id s := by
  unfold selected_quotes at h
  split at h <;> simpa using mem_of_mem_sql_limit h

/-! ## C4: pending-URL expiry -/

/-- C4: a pending URL captured at time `t` is returned by any `get` at or
before `t + 5` minutes; a `get` strictly later returns none and clears the
entry, so every subsequent `get` (with no intervening set) also returns
none — an expired entry is never observed twice. -/
theorem pending_url_expiry_once (t : Int) (url : String) (md : Metadata) (now : Int) :
    (t + PENDING_URL_TIMEOUT * minuteSecs < now →
      get_pending_url now (some ⟨url, md, t⟩) = (none, none) ∧
      ∀ now2 : Int, (get_pending_url now2 (get_pending_url now (some ⟨url, md, t⟩)).2).1 = none) ∧
    (now ≤ t + PENDING_URL_TIMEOUT * minuteSecs →
      (get_pending_url now (some ⟨url, md, t⟩)).1 = some (url, md)) := by
  have hred : get_pending_url now (some ⟨url, md, t⟩) =
      if t + PENDING_URL_TIMEOUT * minuteSecs < now then (none, none)
      else (some (url, md), some ⟨url, md, t⟩) := rfl
  constructor
  · intro h
    have hget : get_pending_url now (some ⟨url, md, t⟩) = (none, none) := by
      rw [hred, if_pos h]
    refine ⟨hget, fun now2 => ?_⟩
    rw [hget]
    rfl
  · intro h
    rw [hred, if_neg (by omega)]

/-- Witness for C4: at `t = 0` the entry is live at 300 s (= 5 min) and
expired at 301 s. -/
theorem pending_url_expiry_once_witness :
    (0 : Int) + PENDING_URL_TIMEOUT * minuteSecs < 301 ∧
    (get_pending_url 301 (some ⟨"u", wmeta, 0⟩)).1 = none ∧
    (get_pending_url 300 (some ⟨"u", wmeta, 0⟩)).1 = some ("u", wmeta) := by
  have h1 := (pending_url_expiry_once 0 "u" wmeta 301).1 (by decide)
  have h2 := (pending_url_expiry_once 0 "u" wmeta 300).2 (by decide)
  exact ⟨by decide, by rw [h1.1], h2⟩

/-! ## C9: delete semantics -/

/-- C9: `delete_quote` returns true exactly when the requester owns a row
with the given id; the matching row is removed; on false the store is
unchanged; rows not matching both id and owner (in particular another
user's quote with that id) remain in the store. -/
theorem delete_quote_spec (u qid : Int) (s : Store) :
    ((delete_quote u qid s).1 = true ↔ ∃ q ∈ s.quotes, q.id = qid ∧ q.user_id = u) ∧
    (∀ q ∈ (delete_quote u qid s).2.quotes, ¬(q.id = qid ∧ q.user_id = u)) ∧
    ((delete_quote u qid s).1 = false → (delete_quote u qid s).2 = s) ∧
    (∀ q ∈ s.quotes, ¬(q.id = qid ∧ q.user_id = u) →
      q ∈ (delete_quote u qid s).2.quotes) := by
  refine ⟨?_, ?_, ?_, ?_⟩
  · simp [delete_quote, List.countP_pos_iff]
  · intro q hq
    have hq2 : q ∈ s.quotes.filter (fun q => !(decide (q.id = qid ∧ q.user_id = u))) := hq
    have hb := (List.mem_filter.mp hq2).2
    rw [Bool.not_eq_true'] at hb
    exact of_decide_eq_false hb
  · intro h
    have hnot : ¬ (0 < s.quotes.countP fun q => decide (q.id = qid ∧ q.user_id = u)) :=
      of_decide_eq_false h
    have hzero : (s.quotes.countP fun q => decide (q.id = qid ∧ q.user_id = u)) = 0 := by
      omega
    have hall := List.countP_eq_zero.mp hzero
    have hkeep : s.quotes.filter (fun q => !(decide (q.id = qid ∧ q.user_id = u))) = s.quotes := by
      rw [List.filter_eq_self]
      intro a ha
      rw [Bool.not_eq_true']
      exact decide_eq_false (fun hp => hall a ha (decide_eq_true hp))
    show Store.mk _ s.next_id = s
    rw [hkeep]
  · intro q hq hnot
    show q ∈ s.quotes.filter (fun q => !(decide (q.id = qid ∧ q.user_id = u)))
    refine List.mem_filter.mpr ⟨hq, ?_⟩
    rw [Bool.not_eq_true']
    exact decide_eq_false hnot

/-- Witness for C9: user 1 deleting quote 3 (owned by user 2) gets false,
the store is unchanged and user 2's quote survives. -/
theorem delete_quote_spec_witness :
    (delete_quote 1 3 wstore).1 = false ∧
    (delete_quote 1 3 wstore).2 = wstore ∧
    wq3 ∈ (delete_quote 1 3 wstore).2.quotes := by
  have h := delete_quote_spec 1 3 wstore
  have hfalse : (delete_quote 1 3 wstore).1 = false := by decide
  exact ⟨hfalse, h.2.2.1 hfalse, h.2.2.2 wq3 (by decide) (by decide)⟩

/-! ## C3: save always succeeds with a fresh id -/

/-- C3 counterexample: `save_quote` with empty text does not fail — the row
is inserted (the NOT NULL constraint only rejects NULL, never `""`) and the
fresh id 1 is returned. -/
theorem save_quote_empty_text_succeeds :
    (save_quote 0 1 "" none none none none [] empty_store).1 = 1 ∧
    ((save_quote 0 1 "" none none none none [] empty_store).2.quotes.map Quote.text) = [""] ∧
    (save_quote 0 1 "" none none none none [] empty_store).2.quotes.length = 1 := by
  decide

/-- C3 (amended): `save_quote` succeeds for every text — including the empty
string — and returns a newly assigned identifier that is distinct from every
identifier in the store (and, since all assigned ids stay below the
monotonically increasing counter, from every previously assigned one); the
row is inserted and the store invariant is preserved. -/
theorem save_quote_returns_fresh_unique_id (now u : Int) (text : String)
    (url title author domain : Option String) (tags : List String)
    (s : Store) (hwf : s.wf) :
    (save_quote now u text url title author domain tags s).1 = s.next_id ∧
    (∀ q ∈ s.quotes, q.id ≠ (save_quote now u text url title author domain tags s).1) ∧
    (∃ q ∈ (save_quote now u text url title author domain tags s).2.quotes,
      q.id = s.next_id ∧ q.text = text ∧ q.user_id = u) ∧
    (save_quote now u text url title author domain tags s).2.wf := by
  refine ⟨rfl, ?_, ?_, ?_, ?_⟩
  · intro q hq
    have hlt := hwf.2 q hq
    show q.id ≠ s.next_id
    omega
  · exact ⟨_, List.mem_append_right _ (List.mem_singleton_self _), rfl, rfl, rfl⟩
  · refine List.pairwise_append.mpr ⟨hwf.1, List.pairwise_singleton _ _, ?_⟩
    intro a ha b hb
    have hlt := hwf.2 a ha
    have hb1 : b.id = s.next_id := by
      simp only [List.mem_singleton] at hb
      rw [hb]
    omega
  · intro q hq
    rcases List.mem_append.mp hq with h | h
    · have := hwf.2 q h
      show q.id < s.next_id + 1
      omega
    · simp only [List.mem_singleton] at h
      rw [h]
      show s.next_id < s.next_id + 1
      omega

/-- Witness for C3: saving into the well-formed `wstore` returns its counter
value 4, which no stored row carries. -/
theorem save_quote_returns_fresh_unique_id_witness :
    wstore.wf ∧
    (save_quote 10 1 "hello" none none none none [] wstore).1 = 4 ∧
    (∀ q ∈ wstore.quotes, q.id ≠ (save_quote 10 1 "hello" none none none none [] wstore).1) := by
  have h := save_quote_returns_fresh_unique_id 10 1 "hello" none none none none [] wstore (by decide)
  exact ⟨by decide, h.1, h.2.1⟩

/-! ## C6: malformed numeric arguments -/

/-- C6 counterexample: a malformed numeric argument to /last does not produce
a usage message — `last_command` silently ignores it (`except ValueError:
pass`) and replies with the default listing ("No quotes saved yet." on an
empty store). -/
theorem last_command_malformed_not_usage :
    (last_command ["abc"] 1 empty_store).1 = Reply.no_quotes ∧
    Reply.is_usage (last_command ["abc"] 1 empty_store).1 = false ∧
    (last_command ["abc"] 1 empty_store).2 = empty_store := by
  decide

/-- C6 (amended): on a malformed (non-numeric) argument, /fav and /delete
reply with the "Invalid quote ID" usage message and change no state; /last
silently falls back to the no-argument behaviour (default 5) and likewise
changes no state. -/
theorem malformed_numeric_argument_behavior (a : String) (rest : List String)
    (u : Int) (s : Store) (hbad : py_int a = none) :
    fav_command (a :: rest) u s = (.invalid_id, s) ∧
    delete_command (a :: rest) u s = (.invalid_id, s) ∧
    last_command (a :: rest) u s = last_command [] u s ∧
    (last_command (a :: rest) u s).2 = s := by
  refine ⟨?_, ?_, ?_, ?_⟩ <;> simp [fav_command, delete_command, last_command, hbad]

/-- Witness for C6 (amended): the non-numeric argument "xyz". -/
theorem malformed_numeric_argument_behavior_witness :
    py_int "xyz" = none ∧
    fav_command ["xyz"] 1 wstore = (.invalid_id, wstore) ∧
    delete_command ["xyz"] 1 wstore = (.invalid_id, wstore) := by
  have h := malformed_numeric_argument_behavior "xyz" [] 1 wstore (by decide)
  exact ⟨by decide, h.1, h.2.1⟩

/-! ## C8: duplicate-detection window (code bug) -/

/-- C8 (code bug in `is_duplicate`): the bytewise comparison of the stored
`CURRENT_TIMESTAMP` text against the `isoformat()` cutoff never matches a
row whose UTC date equals the cutoff's local date.  Hence immediately after
a save at instant `t`, whenever the cutoff's local date prefix equals the
new row's UTC date (the generic case — both dates coincide except right at
a date boundary) and no older identical-text row has a strictly later date
than the cutoff, `is_duplicate` returns false — the opposite of the
claimed/specified behaviour ("true immediately after saving"). -/
theorem is_duplicate_false_after_save (u tz t : Int) (text : String)
    (url title author domain : Option String) (tags : List String) (s : Store)
    (hsame : utc_day (t + tz - minuteSecs) = utc_day t)
    (hold : ∀ q ∈ s.quotes, q.user_id = u → q.text = text →
      utc_day q.created_at ≤ utc_day (t + tz - minuteSecs)) :
    is_duplicate tz t u text 1 (save_quote t u text url title author domain tags s).2 = false := by
  cases hval : is_duplicate tz t u text 1 (save_quote t u text url title author domain tags s).2 with
  | false => rfl
  | true =>
    exfalso
    have hpos : 0 < ((save_quote t u text url title author domain tags s).2.quotes.countP
        fun q => decide (q.user_id = u ∧ q.text = text ∧
          utc_day (t + tz - 1 * minuteSecs) < utc_day q.created_at)) :=
      of_decide_eq_true hval
    rcases List.countP_pos_iff.mp hpos with ⟨q, hq, hpq⟩
    have hp := of_decide_eq_true hpq
    rw [one_mul] at hp
    rcases List.mem_append.mp hq with hq2 | hq2
    · have := hold q hq2 hp.1 hp.2.1
      have := hp.2.2
      omega
    · rw [List.mem_singleton] at hq2
      have hcr : q.created_at = t := by rw [hq2]
      rw [hcr] at hp
      have := hp.2.2
      omega

/-- Witness for C8's code-bug theorem: user 1 saves "dup" into the empty
store at UTC second 1000 of day 0 (offset 0); evaluated at the very same
instant, `is_duplicate` is false. -/
theorem is_duplicate_false_after_save_witness :
    utc_day ((1000 : Int) + 0 - minuteSecs) = utc_day 1000 ∧
    is_duplicate 0 1000 1 "dup" 1
      (save_quote 1000 1 "dup" none none none none [] empty_store).2 = false := by
  refine ⟨by decide, is_duplicate_false_after_save 1 0 1000 "dup" none none none none []
    empty_store (by decide) ?_⟩
  intro q hq
  exact absurd hq (List.not_mem_nil q)

/-! ## C2: selection marks returned quotes as shown -/

/-- `selected_quotes` of a user with no rows is empty. -/
theorem selected_quotes_of_no_rows {tiebreak : Int → Nat} {now u n : Int}
    {sp : Bool} {s : Store} (h0 : user_rows u s = []) :
    selected_quotes tiebreak now u n sp s = [] := by
  unfold selected_quotes
  rw [h0]
  split <;> simp [sql_limit]

/-- C2: every quote returned by `get_random_quotes` has, in the post-state,
its `times_shown` incremented by one and its `last_shown` set to the call
time; the user's rows not included in the result are unchanged; and a user
with zero quotes gets an empty result and an unchanged store. -/
theorem get_random_quotes_counter_update (tiebreak : Int → Nat) (now u n : Int)
    (sp : Bool) (s : Store) (hwf : s.wf) :
    (∀ q ∈ (get_random_quotes tiebreak now u n sp s).1,
      ∃ q2 ∈ (get_random_quotes tiebreak now u n sp s).2.quotes,
        q2.id = q.id ∧ q2.times_shown = q.times_shown + 1 ∧ q2.last_shown = some now) ∧
    (∀ q ∈ s.quotes, q.user_id = u → q ∉ (get_random_quotes tiebreak now u n sp s).1 →
      q ∈ (get_random_quotes tiebreak now u n sp s).2.quotes) ∧
    (user_rows u s = [] →
      (get_random_quotes tiebreak now u n sp s).1 = [] ∧
      (get_random_quotes tiebreak now u n sp s).2 = s) := by
  have hcase : get_random_quotes tiebreak now u n sp s =
      if (selected_quotes tiebreak now u n sp s).isEmpty
      then (selected_quotes tiebreak now u n sp s, s)
      else (selected_quotes tiebreak now u n sp s,
        { s with quotes := s.quotes.map fun q =>
            if q.id ∈ (selected_quotes tiebreak now u n sp s).map Quote.id then
              { q with times_shown := q.times_shown + 1, last_shown := some now }
            else q }) := rfl
  have hself : ∀ q ∈ selected_quotes tiebreak now u n sp s, q ∈ s.quotes ∧ q.user_id = u :=
    fun q hq => mem_user_rows.mp (mem_selected hq)
  by_cases hem : (selected_quotes tiebreak now u n sp s).isEmpty
  · have hres : get_random_quotes tiebreak now u n sp s =
        (selected_quotes tiebreak now u n sp s, s) := by
      rw [hcase, if_pos hem]
    have hrnil : selected_quotes tiebreak now u n sp s = [] := List.isEmpty_iff.mp hem
    refine ⟨?_, ?_, ?_⟩
    · intro q hq
      rw [hres, hrnil] at hq
      exact absurd hq (List.not_mem_nil q)
    · intro q hq _ _
      rw [hres]
      exact hq
    · intro _
      rw [hres, hrnil]
      exact ⟨rfl, rfl⟩
  · have hres : get_random_quotes tiebreak now u n sp s =
        (selected_quotes tiebreak now u n sp s,
         { s with quotes := s.quotes.map fun q =>
             if q.id ∈ (selected_quotes tiebreak now u n sp s).map Quote.id then
               { q with times_shown := q.times_shown + 1, last_shown := some now }
             else q }) := by
      rw [hcase, if_neg hem]
    refine ⟨?_, ?_, ?_⟩
    · intro q hq
      rw [hres] at hq ⊢
      refine ⟨{ q with times_shown := q.times_shown + 1, last_shown := some now },
        ?_, rfl, rfl, rfl⟩
      refine List.mem_map.mpr ⟨q, (hself q hq).1, ?_⟩
      rw [if_pos (List.mem_map_of_mem Quote.id hq)]
    · intro q hq hu hnotin
      rw [hres] at hnotin ⊢
      have hnid : q.id ∉ (selected_quotes tiebreak now u n sp s).map Quote.id := by
        intro hmem
        rcases List.mem_map.mp hmem with ⟨q2, hq2, hid⟩
        have heq : q2 = q := Store.id_unique hwf (hself q2 hq2).1 hq hid
        rw [heq] at hq2
        exact hnotin hq2
      refine List.mem_map.mpr ⟨q, hq, ?_⟩
      rw [if_neg hnid]
    · intro h0
      exact absurd (by rw [selected_quotes_of_no_rows h0]; rfl :
        (selected_quotes tiebreak now u n sp s).isEmpty = true) hem

/-- Witness for C2: on `wstore` (well-formed), selecting one weighted quote
for user 1 returns the never-shown `wq1` and bumps its counter. -/
theorem get_random_quotes_counter_update_witness :
    wstore.wf ∧
    wq1 ∈ (get_random_quotes (fun _ => 0) (100 * daySecs) 1 1 true wstore).1 ∧
    ∃ q2 ∈ (get_random_quotes (fun _ => 0) (100 * daySecs) 1 1 true wstore).2.quotes,
      q2.id = wq1.id ∧ q2.times_shown = wq1.times_shown + 1 ∧
      q2.last_shown = some (100 * daySecs) := by
  have h := get_random_quotes_counter_update (fun _ => 0) (100 * daySecs) 1 1 true wstore
    (by decide)
  have hmem : wq1 ∈ (get_random_quotes (fun _ => 0) (100 * daySecs) 1 1 true wstore).1 := by
    decide
  exact ⟨by decide, hmem, h.1 wq1 hmem⟩

/-! ## C1: weighted selection respects bucket priority -/

theorem sr_bucket_eq_zero_iff (now : Int) (q : Quote) :
    sr_bucket now q = 0 ↔ q.last_shown = none := by
  rcases hls : q.last_shown with _ | t
  · simp [sr_bucket, hls]
  · simp only [sr_bucket, hls]
    split_ifs <;> simp

/-- C1: with spaced repetition on, the returned sequence is ordered by the
fixed bucket priority (never shown, then >30 days, then >7 days, then
recent), with ascending `times_shown` inside a bucket; in particular no
quote precedes a never-shown quote with a strictly smaller `times_shown`. -/
theorem weighted_selection_bucket_order (tiebreak : Int → Nat) (now u n : Int)
    (s : Store) (hnever : ∃ q ∈ s.quotes, q.user_id = u ∧ q.last_shown = none) :
    ((get_random_quotes tiebreak now u n true s).1).Pairwise (fun a b =>
      sr_bucket now a ≤ sr_bucket now b ∧
      (sr_bucket now a = sr_bucket now b → a.times_shown ≤ b.times_shown) ∧
      (b.last_shown = none → a.last_shown = none ∧ a.times_shown ≤ b.times_shown)) := by
  rw [get_random_quotes_fst]
  unfold selected_quotes
  rw [if_pos rfl]
  apply pairwise_sql_limit
  have hs := List.sorted_insertionSort (sr_rel now tiebreak) (user_rows u s)
  refine List.Pairwise.imp ?_ hs
  intro a b hab
  unfold sr_rel at hab
  have h1 : sr_bucket now a ≤ sr_bucket now b := by omega
  have h2 : sr_bucket now a = sr_bucket now b → a.times_shown ≤ b.times_shown := by omega
  refine ⟨h1, h2, ?_⟩
  intro hbnone
  have hb0 : sr_bucket now b = 0 := (sr_bucket_eq_zero_iff now b).mpr hbnone
  have ha0 : sr_bucket now a = 0 := by omega
  exact ⟨(sr_bucket_eq_zero_iff now a).mp ha0, h2 (by omega)⟩

/-- Witness for C1: `wstore` holds a never-shown quote for user 1. -/
theorem weighted_selection_bucket_order_witness :
    (∃ q ∈ wstore.quotes, q.user_id = 1 ∧ q.last_shown = none) ∧
    ((get_random_quotes (fun _ => 0) (40 * daySecs) 1 10 true wstore).1).Pairwise (fun a b =>
      sr_bucket (40 * daySecs) a ≤ sr_bucket (40 * daySecs) b ∧
      (sr_bucket (40 * daySecs) a = sr_bucket (40 * daySecs) b →
        a.times_shown ≤ b.times_shown) ∧
      (b.last_shown = none → a.last_shown = none ∧ a.times_shown ≤ b.times_shown)) :=
  ⟨by decide,
   weighted_selection_bucket_order (fun _ => 0) (40 * daySecs) 1 10 wstore (by decide)⟩

/-! ## C7: /last cap and ordering -/

theorem reply_quotes_if (c : Bool) (l : List Quote) :
    Reply.reply_quotes (if c then Reply.no_quotes else Reply.quote_list l) =
      if c then [] else l := by
  cases c <;> rfl

theorem get_last_quotes_sorted (u n : Int) (s : Store) :
    (get_last_quotes u n s).Pairwise created_desc := by
  unfold get_last_quotes
  exact pairwise_sql_limit _ (List.sorted_insertionSort created_desc (user_rows u s))

/-- C7 counterexample: `/last -1` is a numeric argument, and on a store with
eleven quotes the reply contains all eleven of them — `min(-1, 10) = -1` and
a negative SQLite LIMIT means "no upper bound". -/
theorem last_command_negative_arg_uncapped :
    py_int "-1" = some (-1) ∧
    ¬ ((last_command ["-1"] 1 eleven_store).1.reply_quotes).length ≤ 10 := by
  decide

/-- C7 (amended): for every nonnegative numeric argument the reply holds at
most 10 quotes (the argument is capped at 10) ordered newest first; with no
argument at most 5, newest first; a negative numeric argument disables the
limit and the reply holds all of the user's quotes. -/
theorem last_command_cap_and_order (u : Int) (s : Store) :
    (∀ (a : String) (rest : List String) (k : Int), py_int a = some k → 0 ≤ k →
      ((last_command (a :: rest) u s).1.reply_quotes).length ≤ 10 ∧
      ((last_command (a :: rest) u s).1.reply_quotes).Pairwise created_desc) ∧
    (((last_command [] u s).1.reply_quotes).length ≤ 5 ∧
      ((last_command [] u s).1.reply_quotes).Pairwise created_desc) ∧
    (∀ (a : String) (rest : List String) (k : Int), py_int a = some k → k < 0 →
      ((last_command (a :: rest) u s).1.reply_quotes).length = (user_rows u s).length) := by
  refine ⟨?_, ?_, ?_⟩
  · intro a rest k hk hk0
    have hn : (last_command (a :: rest) u s).1 =
        if (get_last_quotes u (min k 10) s).isEmpty then Reply.no_quotes
        else Reply.quote_list (get_last_quotes u (min k 10) s) := by
      simp [last_command, hk]
    rw [hn, reply_quotes_if]
    constructor
    · split
      · simp
      · have hlen : (get_last_quotes u (min k 10) s).length ≤ (min k 10).toNat := by
          unfold get_last_quotes sql_limit
          rw [if_neg (by omega)]
          simp [List.length_take]
        have : (min k 10).toNat ≤ 10 := by omega
        omega
    · split
      · exact List.Pairwise.nil
      · exact get_last_quotes_sorted u (min k 10) s
  · have hn : (last_command [] u s).1 =
        if (get_last_quotes u 5 s).isEmpty then Reply.no_quotes
        else Reply.quote_list (get_last_quotes u 5 s) := by
      simp [last_command]
    rw [hn, reply_quotes_if]
    constructor
    · split
      · simp
      · have hlen : (get_last_quotes u 5 s).length ≤ (5 : Int).toNat := by
          unfold get_last_quotes sql_limit
          rw [if_neg (by omega)]
          simp [List.length_take]
        omega
    · split
      · exact List.Pairwise.nil
      · exact get_last_quotes_sorted u 5 s
  · intro a rest k hk hkneg
    have hn : (last_command (a :: rest) u s).1 =
        if (get_last_quotes u (min k 10) s).isEmpty then Reply.no_quotes
        else Reply.quote_list (get_last_quotes u (min k 10) s) := by
      simp [last_command, hk]
    have hfull : get_last_quotes u (min k 10) s =
        List.insertionSort created_desc (user_rows u s) := by
      unfold get_last_quotes sql_limit
      rw [if_pos (by omega)]
    rw [hn, reply_quotes_if, hfull]
    split
    · rename_i hem
      rw [List.isEmpty_iff] at hem
      have hlen := List.length_insertionSort created_desc (user_rows u s)
      rw [hem] at hlen
      simp [← hlen]
    · exact List.length_insertionSort created_desc (user_rows u s)

/-- Witness for C7: `/last 20` on the eleven-quote store returns 10 quotes,
ordered newest first. -/
theorem last_command_cap_and_order_witness :
    py_int "20" = some 20 ∧
    ((last_command ["20"] 1 eleven_store).1.reply_quotes).length ≤ 10 ∧
    ((last_command ["20"] 1 eleven_store).1.reply_quotes).Pairwise created_desc := by
  have h := (last_command_cap_and_order 1 eleven_store).1 "20" [] 20 (by decide) (by decide)
  exact ⟨by decide, h.1, h.2⟩

/-! ## C5: per-user isolation of store operations -/

theorem filter_map_eq_of_fixed (l : List Quote) (f : Quote → Quote) (p : Quote → Bool)
    (h1 : ∀ q ∈ l, p q = true → f q = q) (h2 : ∀ q, p (f q) = p q) :
    (l.map f).filter p = l.filter p := by
  induction l with
  | nil => rfl
  | cons a t ih =>
    have h1t : ∀ q ∈ t, p q = true → f q = q :=
      fun q hq => h1 q (List.mem_cons_of_mem a hq)
    simp only [List.map_cons, List.filter_cons, h2 a]
    cases hp : p a with
    | false => exact ih h1t
    | true => rw [h1 a (List.mem_cons_self a t) hp, ih h1t]

/-- C5: store operations invoked for user `u` leave every row of other users
untouched — including the id-filtered counter UPDATE inside
`get_random_quotes` and the deletion in `delete_quote` — and their outputs
(the selected rows, the search results, delete's return value) depend only
on `u`'s rows. -/
theorem per_user_isolation (tiebreak : Int → Nat) (now u qid n : Int) (sp : Bool)
    (kw : String) (s s2 : Store) (hwf : s.wf) :
    other_rows u (get_random_quotes tiebreak now u n sp s).2 = other_rows u s ∧
    other_rows u (delete_quote u qid s).2 = other_rows u s ∧
    (user_rows u s = user_rows u s2 →
      (get_random_quotes tiebreak now u n sp s).1 =
        (get_random_quotes tiebreak now u n sp s2).1 ∧
      search_quotes u kw s = search_quotes u kw s2 ∧
      (delete_quote u qid s).1 = (delete_quote u qid s2).1) := by
  have hself : ∀ q ∈ selected_quotes tiebreak now u n sp s, q ∈ s.quotes ∧ q.user_id = u :=
    fun q hq => mem_user_rows.mp (mem_selected hq)
  refine ⟨?_, ?_, ?_⟩
  · have hcase : get_random_quotes tiebreak now u n sp s =
        if (selected_quotes tiebreak now u n sp s).isEmpty
        then (selected_quotes tiebreak now u n sp s, s)
        else (selected_quotes tiebreak now u n sp s,
          { s with quotes := s.quotes.map fun q =>
              if q.id ∈ (selected_quotes tiebreak now u n sp s).map Quote.id then
                { q with times_shown := q.times_shown + 1, last_shown := some now }
              else q }) := rfl
    by_cases hem : (selected_quotes tiebreak now u n sp s).isEmpty
    · rw [hcase, if_pos hem]
    · rw [hcase, if_neg hem]
      show ((s.quotes.map _).filter _) = _
      apply filter_map_eq_of_fixed
      · intro q hq hpq
        have hqu : q.user_id ≠ u := by simpa using hpq
        have hnid : q.id ∉ (selected_quotes tiebreak now u n sp s).map Quote.id := by
          intro hmem
          rcases List.mem_map.mp hmem with ⟨q2, hq2, hid⟩
          have heq : q2 = q := Store.id_unique hwf (hself q2 hq2).1 hq hid
          rw [heq] at hq2
          exact hqu (hself q hq2).2
        rw [if_neg hnid]
      · intro q
        by_cases hin : q.id ∈ (selected_quotes tiebreak now u n sp s).map Quote.id <;>
          simp [hin]
  · show ((s.quotes.filter _).filter _) = _
    rw [List.filter_filter]
    apply List.filter_congr
    intro a _
    by_cases hp : a.user_id = u <;> simp [hp]
  · intro h
    refine ⟨?_, ?_, ?_⟩
    · rw [get_random_quotes_fst, get_random_quotes_fst]
      unfold selected_quotes
      rw [h]
    · have hsearch : ∀ st : Store, search_quotes u kw st =
          sql_limit 10 (List.insertionSort created_desc
            ((user_rows u st).filter fun q => like_contains q.text kw)) := by
        intro st
        unfold search_quotes user_rows
        rw [List.filter_filter]
        congr 1
        congr 1
        exact List.filter_congr fun a _ => Bool.and_comm _ _
      rw [hsearch s, hsearch s2, h]
    · have hdel : ∀ st : Store, (delete_quote u qid st).1 =
          decide (0 < (user_rows u st).countP fun q => decide (q.id = qid)) := by
        intro st
        show decide (0 < st.quotes.countP fun q => decide (q.id = qid ∧ q.user_id = u)) = _
        unfold user_rows
        rw [List.countP_filter]
        simp only [Bool.decide_and]
      rw [hdel s, hdel s2, h]

/-- Witness for C5: `wstore` and `wstore2` differ only in user 2's row, so
user 1's search agrees on both; user 1's delete leaves user 2's rows
untouched. -/
theorem per_user_isolation_witness :
    wstore.wf ∧
    user_rows 1 wstore = user_rows 1 wstore2 ∧
    search_quotes 1 "a" wstore = search_quotes 1 "a" wstore2 ∧
    other_rows 1 (delete_quote 1 1 wstore).2 = other_rows 1 wstore := by
  have h := per_user_isolation (fun _ => 0) 0 1 1 5 true "a" wstore wstore2 (by decide)
  have heq : user_rows 1 wstore = user_rows 1 wstore2 := by decide
  exact ⟨by decide, heq, (h.2.2 heq).2.1, h.2.1⟩

/-! ## C10: duplicate rejection does not consume the pending URL -/

/-- C10: when `handle_message` rejects a parsed quote as a duplicate, the
store and the pending-URL entry are both left untouched; consequently a
later non-duplicate quote-only message within the TTL still attaches the
pending URL and its metadata to the saved quote (and consumes the entry). -/
theorem handle_message_duplicate_keeps_pending
    (fetch : String → Metadata) (tz now u : Int) (parsed : Parsed) (s : Store)
    (p : Option PendingUrl) (q : String)
    (hq : parsed.quote = some q) (hdup : is_duplicate tz now u q 1 s = true) :
    handle_message fetch tz now u parsed s p = (.duplicate_notice, s, p) ∧
    (∀ (now2 : Int) (parsed2 : Parsed) (q2 : String) (pu : PendingUrl),
      p = some pu → parsed2.url = none → parsed2.quote = some q2 →
      is_duplicate tz now2 u q2 1 s = false →
      now2 ≤ pu.timestamp + PENDING_URL_TIMEOUT * minuteSecs →
      (handle_message fetch tz now2 u parsed2 s p).2.2 = none ∧
      ∃ saved ∈ (handle_message fetch tz now2 u parsed2 s p).2.1.quotes,
        saved.id = s.next_id ∧ saved.text = q2 ∧ saved.url = some pu.url ∧
        saved.source_title = pu.metadata.title ∧
        saved.source_author = pu.metadata.author ∧
        saved.source_domain = pu.metadata.domain) := by
  constructor
  · rcases hp : parsed.url with _ | u3 <;> simp [handle_message, hp, hq, hdup]
  · intro now2 parsed2 q2 pu hpu hurl hq2 hdup2 httl
    have hpend : get_pending_url now2 p = (some (pu.url, pu.metadata), some pu) := by
      rw [hpu]
      have hred : get_pending_url now2 (some pu) =
          if pu.timestamp + PENDING_URL_TIMEOUT * minuteSecs < now2 then (none, none)
          else (some (pu.url, pu.metadata), some pu) := rfl
      rw [hred, if_neg (by omega)]
    have hmsg : handle_message fetch tz now2 u parsed2 s p =
        (.saved (save_quote now2 u q2 (some pu.url) pu.metadata.title pu.metadata.author
            pu.metadata.domain parsed2.tags s).1,
         (save_quote now2 u q2 (some pu.url) pu.metadata.title pu.metadata.author
            pu.metadata.domain parsed2.tags s).2,
         none) := by
      simp [handle_message, hurl, hq2, hdup2, hpend, clear_pending_url]
    rw [hmsg]
    exact ⟨rfl, _, List.mem_append_right _ (List.mem_singleton_self _),
      rfl, rfl, rfl, rfl, rfl, rfl⟩

/-- Witness for C10: at 30 s past midnight the one-minute cutoff falls on
the previous date, so the duplicate branch fires for "alpha" (a
date-boundary case where `is_duplicate` is actually true); the pending URL
survives the rejection, and at time 60 a fresh quote "newtext" is saved
with that URL's metadata. -/
theorem handle_message_duplicate_keeps_pending_witness :
    is_duplicate 0 30 1 "alpha" 1 wstore = true ∧
    handle_message (fun _ => wmeta) 0 30 1 (Parsed.mk none (some "alpha") []) wstore
      (some ⟨"http://x", wmeta, 0⟩) =
      (.duplicate_notice, wstore, some ⟨"http://x", wmeta, 0⟩) ∧
    (handle_message (fun _ => wmeta) 0 60 1 (Parsed.mk none (some "newtext") []) wstore
      (some ⟨"http://x", wmeta, 0⟩)).2.2 = none := by
  have h := handle_message_duplicate_keeps_pending (fun _ => wmeta) 0 30 1
    (Parsed.mk none (some "alpha") []) wstore (some ⟨"http://x", wmeta, 0⟩) "alpha"
    rfl (by decide)
  exact ⟨by decide, h.1,
    (h.2 60 (Parsed.mk none (some "newtext") []) "newtext" ⟨"http://x", wmeta, 0⟩
      rfl rfl rfl (by decide) (by decide)).1⟩

end Flashback
